import Mathlib

set_option autoImplicit false

namespace Execution

/-! Shallow embedding of the account-state engine of the repository
(package state: state_object.go / statedb.go, journal.go, database.go,
historyDB.go, rawdb accessors) and of the mempool invariants.
Go byte slices are lists of byte values, Go big.Int is Int, Go map is an
association list with unique keys built by overwriting insertion, and a Go
runtime panic is the PanicOr.panic outcome. -/

/-- Byte strings: Go byte slices, addresses (20 bytes) and hashes (32 bytes). -/
abbrev Bytes := List Nat

/-- Outcome of a Go computation that can abort the process with a runtime
panic (nil-pointer dereference, assignment to an entry of a nil map). -/
inductive PanicOr (α : Type) where
  | panic : PanicOr α
  | ok : α → PanicOr α
  deriving DecidableEq

/-- Value of a PanicOr in the non-panicking case, with a default. -/
def PanicOr.getD {α : Type} (x : PanicOr α) (d : α) : α :=
  match x with
  | .panic => d
  | .ok a => a

/-- The error values produced by the embedded code, one constructor per
distinct error literal in the source. -/
inductive GoErr where
  /-- key not found (stateObject.GetOriginStorage) -/
  | keyNotFound
  /-- not found (cachingDB.ContractCode) -/
  | codeNotFound
  /-- commit aborted due to earlier error (StateDB.Commit) -/
  | commitAborted
  /-- commit error, in stateObject commit (stateObject.commit / commitHistory) -/
  | commitFailed
  deriving DecidableEq

/-- Decidable equality for Go-style fallible results. -/
instance {ε α : Type} [DecidableEq ε] [DecidableEq α] :
    DecidableEq (Except ε α) := fun x y =>
  match x, y with
  | .ok a, .ok b =>
    if h : a = b then .isTrue (by rw [h])
    else .isFalse (by intro hc; cases hc; exact h rfl)
  | .error a, .error b =>
    if h : a = b then .isTrue (by rw [h])
    else .isFalse (by intro hc; cases hc; exact h rfl)
  | .ok _, .error _ => .isFalse (by intro hc; cases hc)
  | .error _, .ok _ => .isFalse (by intro hc; cases hc)

/-- Lookup in a Go map modelled as an association list. -/
def mlookup {K V : Type} [DecidableEq K] (m : List (K × V)) (k : K) : Option V :=
  match m with
  | [] => none
  | (k', v) :: rest => if k = k' then some v else mlookup rest k

/-- Insertion into a Go map: overwrite the existing entry or append. -/
def minsert {K V : Type} [DecidableEq K] (m : List (K × V)) (k : K) (v : V) :
    List (K × V) :=
  match m with
  | [] => [(k, v)]
  | (k', v') :: rest =>
      if k = k' then (k, v) :: rest else (k', v') :: minsert rest k v

/-- Key set of a Go map, in representation order. -/
def mkeys {K V : Type} (m : List (K × V)) : List K := m.map Prod.fst

/-- Insertion into a Go set (a map to the empty struct). -/
def sinsert {K : Type} [DecidableEq K] (s : List K) (k : K) : List K :=
  if k ∈ s then s else s ++ [k]

/-- Translation of common.Hash.SetBytes / common.BytesToHash: keep the last
32 bytes of the input and left-pad with zero bytes to length 32. -/
def bytesToHash (b : Bytes) : Bytes :=
  let t := if b.length > 32 then b.drop (b.length - 32) else b
  List.replicate (32 - t.length) 0 ++ t

/-- The zero value common.Hash\x7b\x7d: 32 zero bytes. -/
def zeroHash : Bytes := List.replicate 32 0

/-- Keccak-256 hash of the empty byte string, the sentinel
types.EmptyCodeHash distinguishing empty code. -/
def emptyCodeHash : Bytes :=
  [0xc5, 0xd2, 0x46, 0x01, 0x86, 0xf7, 0x23, 0x3c,
   0x92, 0x7e, 0x7d, 0xb2, 0xdc, 0xc7, 0x03, 0xc0,
   0xe5, 0x00, 0xb6, 0x53, 0xca, 0x82, 0x27, 0x3b,
   0x7b, 0xfa, 0xd8, 0x04, 0x5d, 0x85, 0xa4, 0x70]

/-- Modelled from the spec: types.StateAccount (its Go declaration is not
among the provided sources; §3 of the spec fixes nonce, balance, code_hash
and the logical storage map, and the sources read the Storage field as a
map from common.Hash to a byte slice). -/
structure StateAccount where
  nonce : Nat
  balance : Int
  codeHash : Bytes
  storage : List (Bytes × Bytes)
  deriving DecidableEq

/-- Modelled from the spec: types.NewEmptyStateAccount, the empty account of
§3 (nonce 0, balance 0, the empty-code sentinel hash, empty storage). -/
def NewEmptyStateAccount : StateAccount :=
  { nonce := 0, balance := 0, codeHash := emptyCodeHash, storage := [] }

/-- Translation of state.MetadataRecord: the per-transaction metadata delta. -/
structure MetadataRecord where
  nonce : Nat
  balance : Int
  codeHash : Bytes
  code : Bytes
  deriving DecidableEq

/-- The current-state and history key/value stores. -/
abbrev Disk := List (Bytes × Bytes)

/-- Modelled from the spec: rawdb.MetadataPrefix, the byte tag m of §4.1
(the rawdb key builders are not among the provided sources). -/
def metaTag : Bytes := [109]

/-- Modelled from the spec: the code_prefix byte of §4.1. -/
def codeTag : Bytes := [99]

/-- Modelled from the spec: rawdb.codeKey, code_prefix followed by the code
hash (§4.1). -/
def codeKey (h : Bytes) : Bytes := codeTag ++ h

/-- Modelled from the spec: rawdb.metadataKey, the address followed by the
metadata tag (§4.1, consistent with the lookup in cachingDB.GetAccount). -/
def metadataKey (addr : Bytes) : Bytes := addr ++ metaTag

/-- Modelled from the spec: rawdb.storageKey, the address followed by the
slot key (§4.1). -/
def storageKey (addr key : Bytes) : Bytes := addr ++ key

/-- Translation of rawdb.ReadCode: Get under the code key, nil on a miss
(the error of Get is discarded, an absent key yields the empty slice). -/
def ReadCode (disk : Disk) (h : Bytes) : Bytes :=
  (mlookup disk (codeKey h)).getD []

/-- Translation of rawdb.ReadStorage: iterate all rows whose key starts with
the address and collect them into a map keyed by BytesToHash of the row key.
The debug print of each pair is a side effect with no bearing on the result. -/
def ReadStorage (disk : Disk) (addr : Bytes) : List (Bytes × Bytes) :=
  (disk.filter (fun kv => addr.isPrefixOf kv.1)).foldl
    (fun m kv => minsert m (bytesToHash kv.1) kv.2) []

/-- Translation of state.cachingDB: the current-state store with the two
code caches. The LRU eviction policy of the caches only forgets entries and
is not modelled; Get and Add act on the association list directly. -/
structure CachingDB where
  disk : Disk
  codeCache : List (Bytes × Bytes)
  codeSizeCache : List (Bytes × Nat)
  deriving DecidableEq

/-- Translation of cachingDB.ContractCode: consult the code cache, then the
disk; a blob is only accepted when it is non-empty, otherwise the not-found
error is returned. Returns the result together with the updated receiver. -/
def CachingDB.ContractCode (db : CachingDB) (_addr : Bytes) (codeHash : Bytes) :
    Except GoErr Bytes × CachingDB :=
  let code := (mlookup db.codeCache codeHash).getD []
  if 0 < code.length then (.ok code, db)
  else
    let code := ReadCode db.disk codeHash
    if 0 < code.length then
      (.ok code,
       { db with
          codeCache := minsert db.codeCache codeHash code,
          codeSizeCache := minsert db.codeSizeCache codeHash code.length })
    else (.error .codeNotFound, db)

/-- Translation of cachingDB.GetAccount. The source declares
var acct *types.StateAccount, leaving acct nil, and when any row exists
under the address prefix the loop body assigns acct.Storage[key],
dereferencing the nil pointer on its first iteration: the call panics.
With no rows it returns (nil, nil). The trailing code that fills acct from
the m-tagged record is unreachable. -/
def CachingDB.GetAccount (db : CachingDB) (addr : Bytes) :
    PanicOr (Option StateAccount) :=
  let temp := ReadStorage db.disk addr
  if temp.isEmpty then .ok none
  else .panic

/-- Translation of cachingDB.CommitAccount: a batch is created and filled
with the metadata row and one row per pending slot, but Write is never
invoked on it, so the disk is returned unchanged and no error arises. -/
def CachingDB.CommitAccount (db : CachingDB) (addr : Bytes) (metadata : Bytes)
    (pendingStorage : List (Bytes × Bytes)) : Except GoErr CachingDB :=
  let batch : List (Bytes × Bytes) :=
    (metadataKey addr, metadata) ::
      pendingStorage.map (fun kv => (storageKey addr kv.1, kv.2))
  let _ := batch
  .ok db

/-- Big-endian encoding of a number on w bytes, after reduction modulo the
word size (binary.BigEndian.PutUint64 / PutUint32). -/
def beBytes (w : Nat) (n : Nat) : Bytes :=
  (List.range w).map (fun i => n / 256 ^ (w - 1 - i) % 256)

/-- Translation of state.storageHistoryKey: address, slot key, 8-byte block
number, 4-byte transaction index. -/
def storageHistoryKey (bn : Nat) (txId : Int) (addr key : Bytes) : Bytes :=
  addr ++ key ++ beBytes 8 (bn % 2 ^ 64) ++
    beBytes 4 ((txId % (2 ^ 32 : Int)).toNat)

/-- Translation of state.metadataHistoryKey: address, metadata tag, 8-byte
block number, 4-byte transaction index. -/
def metadataHistoryKey (bn : Nat) (txId : Int) (addr : Bytes) : Bytes :=
  addr ++ metaTag ++ beBytes 8 (bn % 2 ^ 64) ++
    beBytes 4 ((txId % (2 ^ 32 : Int)).toNat)

/-- Injective flat encoding of an Int (sign byte then magnitude), a stand-in
for the JSON number encoding. -/
def encodeInt (i : Int) : Bytes := [if i < 0 then 1 else 0, i.natAbs]

/-- Length-led encoding of a byte string, a stand-in for the JSON encoding
of a byte-slice field. -/
def encodeBytes (b : Bytes) : Bytes := b.length :: b

/-- Models json.Marshal of the storageAccount record written by
stateObject.commit: a self-describing encoding of nonce, balance, codeHash. -/
def marshalStorageAccount (nonce : Nat) (balance : Int) (codeHash : Bytes) :
    Bytes :=
  nonce :: encodeInt balance ++ encodeBytes codeHash

/-- Models json.Marshal of a MetadataRecord written by CommitAccountToHistory. -/
def marshalMetadataRecord (m : MetadataRecord) : Bytes :=
  m.nonce :: encodeInt m.balance ++ encodeBytes m.codeHash ++ encodeBytes m.code

/-- Translation of state.HistoryDB: the append-only history store. -/
structure HistoryDB where
  disk : Disk
  deriving DecidableEq

/-- Translation of HistoryDB.CommitAccountToHistory: a batch is created and
filled with one metadata row per recorded transaction index and one row per
recorded slot, but Write is never invoked on it, so the history disk is
returned unchanged and no error arises. -/
def HistoryDB.CommitAccountToHistory (hdb : HistoryDB) (addr : Bytes)
    (bn : Nat) (storageRecord : List (Int × List (Bytes × Bytes)))
    (metadataRecord : List (Int × MetadataRecord)) : Except GoErr HistoryDB :=
  let metaRows : List (Bytes × Bytes) :=
    metadataRecord.map
      (fun tm => (metadataHistoryKey bn tm.1 addr, marshalMetadataRecord tm.2))
  let storageRows : List (Bytes × Bytes) :=
    (storageRecord.map
      (fun ts => ts.2.map
        (fun kv => (storageHistoryKey bn ts.1 addr kv.1, kv.2)))).flatten
  let batch := metaRows ++ storageRows
  let _ := batch
  .ok hdb

/-- Translation of the journal entry variants of journal.go; every variant
remembers the previous value of one scalar of one account. -/
inductive JournalEntry where
  | balanceChange (account : Bytes) (prev : Int)
  | nonceChange (account : Bytes) (prev : Nat)
  | storageChange (account : Bytes) (key : Bytes) (prevalue : Bytes)
  | codeChange (account : Bytes) (prevcode : Bytes) (prevhash : Bytes)
  deriving DecidableEq

/-- Translation of journalEntry.dirtied: all four variants report their
account as dirtied. -/
def JournalEntry.dirtied : JournalEntry → Option Bytes
  | .balanceChange a _ => some a
  | .nonceChange a _ => some a
  | .storageChange a _ _ => some a
  | .codeChange a _ _ => some a

/-- Translation of state.journal: the entry list and the dirty multiset. -/
structure Journal where
  entries : List JournalEntry
  dirties : List (Bytes × Int)
  deriving DecidableEq

/-- Translation of newJournal. -/
def Journal.new : Journal := { entries := [], dirties := [] }

/-- Translation of journal.append: push the entry and bump the dirty count
of its account (a Go map read of an absent key yields zero). -/
def Journal.append (j : Journal) (e : JournalEntry) : Journal :=
  { entries := j.entries ++ [e],
    dirties :=
      match e.dirtied with
      | none => j.dirties
      | some a => minsert j.dirties a ((mlookup j.dirties a).getD 0 + 1) }

/-- Translation of state.stateObject. The db back-pointer is dropped: the
fields of the owning StateDB that the methods consult (txIndex, journal,
error memo) are threaded explicitly by the StateDB-level operations below.
The addrHash field (a Keccak of the address, never read by the modelled
operations) is omitted. -/
structure StateObject where
  address : Bytes
  origin : Option StateAccount
  data : StateAccount
  code : Option Bytes
  originStorage : List (Bytes × Bytes)
  pendingStorage : List (Bytes × Bytes)
  dirtyStorage : List (Bytes × Bytes)
  storageRecord : List (Int × List (Bytes × Bytes))
  metadataRecord : List (Int × MetadataRecord)
  dirtyCode : Bool
  suicided : Bool
  deleted : Bool
  deriving DecidableEq

/-- Translation of state.newObject: a nil account argument is replaced by
the empty account while origin keeps the nil. -/
def newObject (addr : Bytes) (acct : Option StateAccount) : StateObject :=
  { address := addr
    origin := acct
    data := acct.getD NewEmptyStateAccount
    code := none
    originStorage := []
    pendingStorage := []
    dirtyStorage := []
    storageRecord := []
    metadataRecord := []
    dirtyCode := false
    suicided := false
    deleted := false }

/-- Translation of stateObject.GetOriginStorage: look the slot up in the
Storage map of the account data under BytesToHash of address plus key; none
models the key-not-found error return. -/
def StateObject.getOriginStorage (obj : StateObject) (key : Bytes) :
    Option Bytes :=
  mlookup obj.data.storage (bytesToHash (obj.address ++ key))

/-- Result of a slot read at object level: the value, the updated object
(the origin cache may have been filled) and the error to memoise, if any. -/
structure SlotRead where
  value : Bytes
  obj : StateObject
  err : Option GoErr
  deriving DecidableEq

/-- Translation of stateObject.GetCommittedState: pending layer first, then
the origin cache, then GetOriginStorage; a hit from disk is converted with
SetBytes and cached in the origin layer; the failure path returns the zero
hash and reports the error for the memo. -/
def StateObject.getCommittedState (obj : StateObject) (key : Bytes) : SlotRead :=
  match mlookup obj.pendingStorage key with
  | some v => { value := v, obj := obj, err := none }
  | none =>
    match mlookup obj.originStorage key with
    | some v => { value := v, obj := obj, err := none }
    | none =>
      match obj.getOriginStorage key with
      | none => { value := zeroHash, obj := obj, err := some .keyNotFound }
      | some val =>
        { value := bytesToHash val
          obj := { obj with
                    originStorage := minsert obj.originStorage key (bytesToHash val) }
          err := none }

/-- Translation of stateObject.GetState: the dirty layer first, then the
committed chain. -/
def StateObject.getState (obj : StateObject) (key : Bytes) : SlotRead :=
  match mlookup obj.dirtyStorage key with
  | some v => { value := v, obj := obj, err := none }
  | none => obj.getCommittedState key

/-- Translation of stateObject.finalise: promote every dirty slot into the
pending layer (last writer wins) and reset the dirty layer when it was
non-empty. -/
def StateObject.finalise (obj : StateObject) : StateObject :=
  { obj with
      pendingStorage :=
        obj.dirtyStorage.foldl (fun p kv => minsert p kv.1 kv.2) obj.pendingStorage
      dirtyStorage := if obj.dirtyStorage.length > 0 then [] else obj.dirtyStorage }

/-- Translation of the metadata-record update performed by
stateObject.SetBalance: overwrite the balance of the record of the current
transaction index, creating a blank record when none exists yet. -/
def metadataRecordWithBalance (obj : StateObject) (txIndex : Int)
    (amount : Int) : MetadataRecord :=
  match mlookup obj.metadataRecord txIndex with
  | some old =>
      { nonce := old.nonce, balance := amount,
        codeHash := old.codeHash, code := old.code }
  | none => { nonce := 0, balance := amount, codeHash := [], code := [] }

/-- Translation of state.StateDB. The access-list, transient-storage, log
and preimage members are stubs or are untouched by the claims and are
omitted. -/
structure StateDB where
  currentDB : CachingDB
  historyDB : HistoryDB
  stateObjects : List (Bytes × StateObject)
  stateObjectsPending : List Bytes
  stateObjectsDirty : List Bytes
  writeSet : List (Bytes × Bytes)
  journal : Journal
  thash : Bytes
  txIndex : Int
  blockNum : Nat
  refund : Nat
  dbErr : Option GoErr
  deriving DecidableEq

/-- Translation of state.New. -/
def StateDB.New (currentDB : CachingDB) (historyDB : HistoryDB) : StateDB :=
  { currentDB := currentDB
    historyDB := historyDB
    stateObjects := []
    stateObjectsPending := []
    stateObjectsDirty := []
    writeSet := []
    journal := Journal.new
    thash := []
    txIndex := 0
    blockNum := 0
    refund := 0
    dbErr := none }

/-- Translation of StateDB.setError: memoise only the first error. -/
def StateDB.setError (db : StateDB) (e : GoErr) : StateDB :=
  if db.dbErr = none then { db with dbErr := some e } else db

/-- Translation of StateDB.getDeletedStateObject: a memory hit is returned
directly; otherwise the account is fetched through cachingDB.GetAccount
(which panics whenever rows exist on disk), a nil result is passed through,
and a loaded account is wrapped in a fresh object and cached. -/
def StateDB.getDeletedStateObject (db : StateDB) (addr : Bytes) :
    PanicOr (Option StateObject × StateDB) :=
  match mlookup db.stateObjects addr with
  | some obj => .ok (some obj, db)
  | none =>
    match db.currentDB.GetAccount addr with
    | .panic => .panic
    | .ok none => .ok (none, db)
    | .ok (some data) =>
      let obj := newObject addr (some data)
      .ok (some obj, { db with stateObjects := minsert db.stateObjects addr obj })

/-- Translation of StateDB.getStateObject: hide objects marked deleted. -/
def StateDB.getStateObject (db : StateDB) (addr : Bytes) :
    PanicOr (Option StateObject × StateDB) :=
  match db.getDeletedStateObject addr with
  | .panic => .panic
  | .ok (some obj, db1) =>
      if obj.deleted then .ok (none, db1) else .ok (some obj, db1)
  | .ok (none, db1) => .ok (none, db1)

/-- Translation of StateDB.createObject: fetch the possibly-deleted previous
object, then install a fresh empty object under the address. -/
def StateDB.createObject (db : StateDB) (addr : Bytes) :
    PanicOr ((StateObject × Option StateObject) × StateDB) :=
  match db.getDeletedStateObject addr with
  | .panic => .panic
  | .ok (prev, db1) =>
    let newobj := newObject addr none
    let db2 := { db1 with stateObjects := minsert db1.stateObjects addr newobj }
    match prev with
    | some p => if p.deleted then .ok ((newobj, none), db2)
                else .ok ((newobj, some p), db2)
    | none => .ok ((newobj, none), db2)

/-- Translation of StateDB.GetOrNewStateObject: read the object or create a
fresh one when absent. -/
def StateDB.GetOrNewStateObject (db : StateDB) (addr : Bytes) :
    PanicOr (StateObject × StateDB) :=
  match db.getStateObject addr with
  | .panic => .panic
  | .ok (some obj, db1) => .ok (obj, db1)
  | .ok (none, db1) =>
    match db1.createObject addr with
    | .panic => .panic
    | .ok ((newobj, _), db2) => .ok (newobj, db2)

/-- Translation of StateDB.GetBalance: the balance of the resolved object,
or zero for a missing account. -/
def StateDB.GetBalance (db : StateDB) (addr : Bytes) : PanicOr (Int × StateDB) :=
  match db.getStateObject addr with
  | .panic => .panic
  | .ok (none, db1) => .ok (0, db1)
  | .ok (some obj, db1) => .ok (obj.data.balance, db1)

/-- Translation of StateDB.GetCommittedState together with the object-level
read it delegates to: the updated object is stored back (the Go object is
mutated through its pointer) and a read failure is memoised via setError. -/
def StateDB.GetCommittedState (db : StateDB) (addr key : Bytes) :
    PanicOr (Bytes × StateDB) :=
  match db.getStateObject addr with
  | .panic => .panic
  | .ok (none, db1) => .ok (zeroHash, db1)
  | .ok (some obj, db1) =>
    let r := obj.getCommittedState key
    let db2 := { db1 with stateObjects := minsert db1.stateObjects addr r.obj }
    match r.err with
    | some e => .ok (r.value, db2.setError e)
    | none => .ok (r.value, db2)

/-- Translation of StateDB.GetState together with stateObject.GetState. -/
def StateDB.GetState (db : StateDB) (addr key : Bytes) :
    PanicOr (Bytes × StateDB) :=
  match db.getStateObject addr with
  | .panic => .panic
  | .ok (none, db1) => .ok (zeroHash, db1)
  | .ok (some obj, db1) =>
    let r := obj.getState key
    let db2 := { db1 with stateObjects := minsert db1.stateObjects addr r.obj }
    match r.err with
    | some e => .ok (r.value, db2.setError e)
    | none => .ok (r.value, db2)

/-- Translation of StateDB.SetState together with stateObject.SetState: read
the previous value (with its cache and memo side effects), return unchanged
when the new value equals it; otherwise journal the previous value and then
assign storageRecord[txIndex][key]. The outer storageRecord map never has
an entry for txIndex (nothing in the package creates one), so that
assignment writes to a nil inner map, which panics in Go. -/
def StateDB.SetState (db : StateDB) (addr key value : Bytes) :
    PanicOr StateDB :=
  match db.GetOrNewStateObject addr with
  | .panic => .panic
  | .ok (obj0, db1) =>
    let r := obj0.getState key
    let db2 := { db1 with stateObjects := minsert db1.stateObjects addr r.obj }
    let db2 := match r.err with
      | some e => db2.setError e
      | none => db2
    if r.value = value then .ok db2
    else
      let db3 :=
        { db2 with
            journal := db2.journal.append (.storageChange addr key r.value) }
      match mlookup r.obj.storageRecord db3.txIndex with
      | none => .panic
      | some inner =>
        let obj2 :=
          { r.obj with
              storageRecord :=
                minsert r.obj.storageRecord db3.txIndex (minsert inner key value)
              dirtyStorage := minsert r.obj.dirtyStorage key value }
        .ok { db3 with stateObjects := minsert db3.stateObjects addr obj2 }

/-- Translation of StateDB.SetBalance together with stateObject.SetBalance:
journal the previous balance unconditionally, stamp the metadata record of
the current transaction index, and store the new balance. -/
def StateDB.SetBalance (db : StateDB) (addr : Bytes) (amount : Int) :
    PanicOr StateDB :=
  match db.GetOrNewStateObject addr with
  | .panic => .panic
  | .ok (obj, db1) =>
    let j := db1.journal.append (.balanceChange obj.address obj.data.balance)
    let obj2 :=
      { obj with
          metadataRecord :=
            minsert obj.metadataRecord db1.txIndex
              (metadataRecordWithBalance obj db1.txIndex amount)
          data := { obj.data with balance := amount } }
    .ok { db1 with
            journal := j
            stateObjects := minsert db1.stateObjects addr obj2 }

/-- Translation of StateDB.AddBalance together with stateObject.AddBalance:
a zero amount returns immediately, otherwise SetBalance of the sum. The
object resolved by GetOrNewStateObject is already cached in the returned
state, so re-dispatching SetBalance on the address reads the same object
the Go method mutates through its receiver. -/
def StateDB.AddBalance (db : StateDB) (addr : Bytes) (amount : Int) :
    PanicOr StateDB :=
  match db.GetOrNewStateObject addr with
  | .panic => .panic
  | .ok (obj, db1) =>
    if amount = 0 then .ok db1
    else db1.SetBalance addr (obj.data.balance + amount)

/-- Translation of StateDB.SubBalance together with stateObject.SubBalance:
a zero amount returns immediately, otherwise SetBalance of the difference. -/
def StateDB.SubBalance (db : StateDB) (addr : Bytes) (amount : Int) :
    PanicOr StateDB :=
  match db.GetOrNewStateObject addr with
  | .panic => .panic
  | .ok (obj, db1) =>
    if amount = 0 then .ok db1
    else db1.SetBalance addr (obj.data.balance - amount)

/-- Translation of StateDB.Snapshot: the body is commented out and the
method returns the constant zero. -/
def StateDB.Snapshot (_db : StateDB) : Int := 0

/-- Translation of StateDB.RevertToSnapshot: the body is commented out and
the method returns without touching the state; the journal replay machinery
of journal.go is never invoked. -/
def StateDB.RevertToSnapshot (db : StateDB) (_revid : Int) : StateDB := db

/-- Translation of StateDB.clearJournalAndRefund: replace the journal by a
fresh one when it has entries. -/
def StateDB.clearJournalAndRefund (db : StateDB) : StateDB :=
  if db.journal.entries.length > 0 then { db with journal := Journal.new } else db

/-- Translation of StateDB.Finalise: finalise the object of every dirtied
address that still exists, mark it pending and dirty, then clear the
journal. -/
def StateDB.Finalise (db : StateDB) : StateDB :=
  let db1 :=
    (mkeys db.journal.dirties).foldl
      (fun d addr =>
        match mlookup d.stateObjects addr with
        | none => d
        | some obj =>
          { d with
              stateObjects := minsert d.stateObjects addr obj.finalise
              stateObjectsPending := sinsert d.stateObjectsPending addr
              stateObjectsDirty := sinsert d.stateObjectsDirty addr })
      db
  db1.clearJournalAndRefund

/-- Translation of the digest loop at the end of StateDB.Commit: concatenate
the values of the write-set in the order the entries are visited. The Go
source visits sdb.writeSet with a map range whose order is unspecified, so
the list order here models one possible iteration order. -/
def commitHashBytes (ws : List (Bytes × Bytes)) : Bytes :=
  (ws.map Prod.snd).foldl (fun acc b => acc ++ b) []

/-- Translation of stateObject.commit: serialise the metadata, fold the
pending slots into the block write-set, and hand metadata and pending
storage to cachingDB.CommitAccount. -/
def StateObject.commit (obj : StateObject) (db : CachingDB)
    (writeSet : List (Bytes × Bytes)) :
    Except GoErr (CachingDB × List (Bytes × Bytes)) :=
  let metaData :=
    marshalStorageAccount obj.data.nonce obj.data.balance obj.data.codeHash
  let ws2 := obj.pendingStorage.foldl (fun w kv => minsert w kv.1 kv.2) writeSet
  match db.CommitAccount obj.address metaData obj.pendingStorage with
  | .error _ => .error .commitFailed
  | .ok db2 => .ok (db2, ws2)

/-- Translation of the per-address body of the commit loop of StateDB.Commit
over the dirty set: a missing object is a nil pointer and panics on the
deleted check; deleted objects are skipped; dirty code is written into the
codeWriter batch (never flushed) and the flag cleared; then the object is
committed to the current database and to history. -/
def commitObjects : List Bytes → StateDB → PanicOr (Except GoErr Unit × StateDB)
  | [], db => .ok (.ok (), db)
  | addr :: rest, db =>
    match mlookup db.stateObjects addr with
    | none => .panic
    | some obj =>
      if obj.deleted then commitObjects rest db
      else
        let obj1 :=
          if obj.code.isSome ∧ obj.dirtyCode then { obj with dirtyCode := false }
          else obj
        match obj1.commit db.currentDB db.writeSet with
        | .error e =>
          .ok (.error e,
               { db with stateObjects := minsert db.stateObjects addr obj1 })
        | .ok (cdb2, ws2) =>
          match db.historyDB.CommitAccountToHistory obj1.address db.blockNum
              obj1.storageRecord obj1.metadataRecord with
          | .error e =>
            .ok (.error e,
                 { db with
                     currentDB := cdb2
                     writeSet := ws2
                     stateObjects := minsert db.stateObjects addr obj1 })
          | .ok hdb2 =>
            commitObjects rest
              { db with
                  currentDB := cdb2
                  historyDB := hdb2
                  writeSet := ws2
                  stateObjects := minsert db.stateObjects addr obj1 }

/-- Translation of StateDB.Commit: abort on a memoised error, finalise, run
the commit loop over the dirty addresses, then return a digest of the
write-set values under the externally supplied Keccak-256 collaborator. -/
def StateDB.Commit (keccak : Bytes → Bytes) (db : StateDB) :
    PanicOr (Except GoErr Bytes × StateDB) :=
  if db.dbErr ≠ none then .ok (.error .commitAborted, db)
  else
    let db1 := db.Finalise
    match commitObjects db1.stateObjectsDirty db1 with
    | .panic => .panic
    | .ok (.error e, db2) => .ok (.error e, db2)
    | .ok (.ok _, db2) =>
      .ok (.ok (keccak (commitHashBytes db2.writeSet)), db2)

/-! The mempool counting invariant. The LegacyPool implementation is not
among the provided sources (only its test file is), so the pool state and
the maintenance steps are modelled from the spec, sections 4.6.2 and 4.6.3:
pending and queue are per-address transaction lists, all is the global
lookup partitioned into local and remote, priced holds the remote
transactions split into an urgent and a floating half that Reheap
redistributes, admission rejects a known hash and routes a transaction to
pending or queue, and removal drops one hash everywhere. -/

/-- Modelled from the spec: a pooled transaction, reduced to the attributes
the counting invariant mentions, its hash and its local flag. -/
structure PoolTx where
  hash : Nat
  isLocal : Bool
  deriving DecidableEq

/-- Modelled from the spec: the mutable maps of the pool (section 4.6.2). -/
structure Pool where
  pending : List (Nat × List PoolTx)
  queue : List (Nat × List PoolTx)
  all : List PoolTx
  urgent : List PoolTx
  floating : List PoolTx
  deriving DecidableEq

/-- The pool at boot: every container empty. -/
def emptyPool : Pool :=
  { pending := [], queue := [], all := [], urgent := [], floating := [] }

/-- All transactions of a per-address bucket map, in bucket order. -/
def bucketTxs (m : List (Nat × List PoolTx)) : List PoolTx :=
  (m.map Prod.snd).flatten

/-- Append a transaction to the bucket of one address, creating the bucket
when absent. -/
def addToBucket (m : List (Nat × List PoolTx)) (a : Nat) (tx : PoolTx) :
    List (Nat × List PoolTx) :=
  match m with
  | [] => [(a, [tx])]
  | (a', l) :: rest =>
      if a = a' then (a', l ++ [tx]) :: rest
      else (a', l) :: addToBucket rest a tx

/-- Modelled from the spec: the maintenance steps that move transactions in
and out of the pool. Admission inserts into all and, for a remote
transaction, into the priced heap; removal filters one hash out of every
container; Reheap only moves entries between the urgent and floating halves. -/
inductive PoolOp where
  | addPending (addr : Nat) (tx : PoolTx)
  | addQueued (addr : Nat) (tx : PoolTx)
  | remove (h : Nat)
  | rebalance (n : Nat)
  deriving DecidableEq

/-- Modelled from the spec: one maintenance step of the pool. An admission
whose hash is already known is rejected and leaves the pool unchanged. -/
def stepPool (p : Pool) (op : PoolOp) : Pool :=
  match op with
  | .addPending a tx =>
    if (p.all.map PoolTx.hash).contains tx.hash then p
    else
      { p with
          pending := addToBucket p.pending a tx
          all := p.all ++ [tx]
          urgent := if tx.isLocal then p.urgent else p.urgent ++ [tx] }
  | .addQueued a tx =>
    if (p.all.map PoolTx.hash).contains tx.hash then p
    else
      { p with
          queue := addToBucket p.queue a tx
          all := p.all ++ [tx]
          urgent := if tx.isLocal then p.urgent else p.urgent ++ [tx] }
  | .remove h =>
    { pending := p.pending.map (fun al => (al.1, al.2.filter (fun t => t.hash != h)))
      queue := p.queue.map (fun al => (al.1, al.2.filter (fun t => t.hash != h)))
      all := p.all.filter (fun t => t.hash != h)
      urgent := p.urgent.filter (fun t => t.hash != h)
      floating := p.floating.filter (fun t => t.hash != h) }
  | .rebalance n =>
    { p with
        urgent := p.urgent.drop n
        floating := p.floating ++ p.urgent.take n }

/-- The pool reached by a sequence of maintenance steps from boot; a pool at
rest is one in which no step is in flight, that is, exactly such a fold. -/
def runPoolOps (ops : List PoolOp) : Pool := ops.foldl stepPool emptyPool

/-- Number of pending transactions. -/
def pendingCount (p : Pool) : Nat := (bucketTxs p.pending).length

/-- Number of queued transactions. -/
def queueCount (p : Pool) : Nat := (bucketTxs p.queue).length

/-- Translation of TxLookup Count: size of the global lookup. -/
def allCount (p : Pool) : Nat := p.all.length

/-- Translation of TxLookup RemoteCount: number of non-local entries. -/
def remoteCount (p : Pool) : Nat :=
  (p.all.filter (fun t => !t.isLocal)).length

/-- The multiset invariant behind the counts: the pending and queued
transactions together are a permutation of the global lookup, and the two
halves of the priced heap together are a permutation of its remote part. -/
def PoolInv (p : Pool) : Prop :=
  (bucketTxs p.pending ++ bucketTxs p.queue).Perm p.all ∧
    (p.urgent ++ p.floating).Perm (p.all.filter (fun t => !t.isLocal))

/-! Concrete inputs used by the per-claim theorems below. -/

/-- A current-state database with empty disk and caches. -/
def emptyCachingDB : CachingDB := { disk := [], codeCache := [], codeSizeCache := [] }

/-- A StateDB over empty current and history stores. -/
def freshStateDB : StateDB := StateDB.New emptyCachingDB { disk := [] }

/-- The identity function standing in for the Keccak-256 collaborator when a
commit is evaluated on a concrete input. -/
def idKeccak : Bytes → Bytes := fun b => b

/-- Projection of a balance read, discarding the updated state. -/
def balanceOf (r : PanicOr (Int × StateDB)) : Option Int :=
  match r with
  | .ok (v, _) => some v
  | .panic => none

/-- Address used by the commit round-trip scenario. -/
def c1addr : Bytes := [1]

/-- The state after SetBalance of 44 on the fresh StateDB (the commit
round-trip scenario of the spec, section 8 item 5). -/
def c1db1 : StateDB := (freshStateDB.SetBalance c1addr 44).getD freshStateDB

/-- The result of committing that state. -/
def c1commitRes : PanicOr (Except GoErr Bytes × StateDB) :=
  c1db1.Commit idKeccak

/-- The state returned by that commit. -/
def c1dbAfter : StateDB :=
  match c1commitRes with
  | .ok (_, d) => d
  | .panic => c1db1

/-- Address used by the GetAccount scenario. -/
def c2addr : Bytes := [7]

/-- A disk holding exactly one row under the address prefix of c2addr (its
metadata row). -/
def c2disk : Disk := [(metadataKey c2addr, [1])]

/-- Address used by the snapshot/revert scenario. -/
def c3addr : Bytes := [3]

/-- State with balance 7 for c3addr. -/
def c3db1 : StateDB := (freshStateDB.SetBalance c3addr 7).getD freshStateDB

/-- State after the mutation SetBalance 9 performed past the snapshot. -/
def c3db2 : StateDB := (c3db1.SetBalance c3addr 9).getD c3db1

/-- State after reverting to the snapshot taken before the mutation. -/
def c3db3 : StateDB := c3db2.RevertToSnapshot c3db1.Snapshot

/-- Address used by the SetState scenario. -/
def c5addr : Bytes := [5]

/-- A storage key for the SetState scenario. -/
def c5key : Bytes := bytesToHash [1]

/-- A value different from the current read of c5key (which is the zero
hash on a fresh account). -/
def c5val : Bytes := bytesToHash [9]

/-- The state produced by the equal-value SetState (writing the zero hash,
the value GetState returns for the fresh account). -/
def c5dbEq : StateDB :=
  (freshStateDB.SetState c5addr c5key zeroHash).getD freshStateDB

/-- First storage key of the digest-order scenario. -/
def c6k1 : Bytes := bytesToHash [1]

/-- Second storage key of the digest-order scenario. -/
def c6k2 : Bytes := bytesToHash [2]

/-- First value of the digest-order scenario. -/
def c6v1 : Bytes := bytesToHash [10]

/-- Second value of the digest-order scenario. -/
def c6v2 : Bytes := bytesToHash [20]

/-- A write-set with two distinct slots holding distinct values. -/
def c6ws : List (Bytes × Bytes) := [(c6k1, c6v1), (c6k2, c6v2)]

/-- Address used by the error-memo scenario. -/
def c7addr : Bytes := [11]

/-- A storage key absent from every layer of the c7 object. -/
def c7key : Bytes := bytesToHash [4]

/-- A StateDB already holding an in-memory object for c7addr. -/
def c7db : StateDB :=
  { freshStateDB with stateObjects := [(c7addr, newObject c7addr none)] }

/-- Code hash used by the contract-code scenario. -/
def c8hash : Bytes := bytesToHash [8]

/-- A cachingDB whose disk stores an empty code blob under the code key of
c8hash. -/
def c8db : CachingDB :=
  { disk := [(codeKey c8hash, [])], codeCache := [], codeSizeCache := [] }

/-- A cachingDB whose disk stores the code blob 3,3,3 under the code key of
c8hash, with empty caches. -/
def c8dbW : CachingDB :=
  { disk := [(codeKey c8hash, [3, 3, 3])], codeCache := [], codeSizeCache := [] }

/-- Address used by the zero-amount balance scenario. -/
def c10addr : Bytes := [13]

/-- An existing object with balance 5 for c10addr. -/
def c10obj : StateObject :=
  { newObject c10addr none with
      data := { NewEmptyStateAccount with balance := 5 } }

/-- A StateDB already holding c10obj in memory. -/
def c10db : StateDB :=
  { freshStateDB with stateObjects := [(c10addr, c10obj)] }

/-- Storage key of the layer-order witness. -/
def c4key : Bytes := bytesToHash [2]

/-- Dirty-layer value of the layer-order witness. -/
def c4v1 : Bytes := bytesToHash [21]

/-- Pending-layer value of the layer-order witness. -/
def c4v2 : Bytes := bytesToHash [22]

/-- An object whose dirty and pending layers disagree on c4key. -/
def c4obj : StateObject :=
  { newObject [4] none with
      dirtyStorage := [(c4key, c4v1)]
      pendingStorage := [(c4key, c4v2)] }

theorem mlookup_minsert {K V : Type} [DecidableEq K] (m : List (K × V))
    (k : K) (v : V) : mlookup (minsert m k v) k = some v := by
  induction m with
  | nil => simp [minsert, mlookup]
  | cons kv rest ih =>
    obtain ⟨k', v'⟩ := kv
    by_cases hk : k = k'
    · simp [minsert, hk, mlookup]
    · simp [minsert, hk, mlookup, ih]

theorem minsert_self {K V : Type} [DecidableEq K] {m : List (K × V)}
    {k : K} {v : V} (h : mlookup m k = some v) : minsert m k v = m := by
  induction m with
  | nil => simp [mlookup] at h
  | cons kv rest ih =>
    obtain ⟨k', v'⟩ := kv
    by_cases hk : k = k'
    · simp [mlookup, hk] at h
      simp [minsert, hk, h]
    · simp [mlookup, hk] at h
      simp [minsert, hk, ih h]

/-- C1. Commit does not round-trip through disk: committing a block that
set the balance of an account to 44 succeeds, yet both batches are
discarded unwritten, the current and history disks stay empty, and a fresh
StateDB constructed over the same current-state database reads balance 0
for the dirtied account instead of the committed 44. -/
theorem commit_roundtrip_lost :
    c1commitRes = .ok (.ok [], c1dbAfter)
    ∧ c1dbAfter.currentDB.disk = []
    ∧ c1dbAfter.historyDB.disk = []
    ∧ balanceOf ((StateDB.New c1dbAfter.currentDB c1dbAfter.historyDB).GetBalance
        c1addr) = some 0
    ∧ balanceOf (c1db1.GetBalance c1addr) = some 44 := by
  decide

/-- C2. GetAccount is not total: it does return (nil, nil) on a disk with no
rows under the address prefix, but as soon as one row exists it panics (the
loop assigns through the nil acct pointer) instead of returning the parsed
StateAccount. -/
theorem getAccount_panics_on_rows :
    CachingDB.GetAccount emptyCachingDB c2addr = .ok none
    ∧ CachingDB.GetAccount
        { disk := c2disk, codeCache := [], codeSizeCache := [] } c2addr
        = .panic := by
  decide

/-- C3. Snapshot and revert are stubs: Snapshot always returns 0 and
RevertToSnapshot returns the state unchanged, so after taking a snapshot at
balance 7 and mutating the balance to 9, reverting to that snapshot leaves
the balance at 9 instead of restoring 7, and no journal entry is undone. -/
theorem revertToSnapshot_restores_nothing :
    c3db1.Snapshot = 0
    ∧ c3db3 = c3db2
    ∧ balanceOf (c3db1.GetBalance c3addr) = some 7
    ∧ balanceOf (c3db3.GetBalance c3addr) = some 9
    ∧ (9 : Int) ≠ 7 := by
  decide

/-- C5. SetState with a fresh value panics instead of recording it: on a
fresh account, writing a value different from the current read journals the
previous value and then assigns storageRecord[txIndex][key] into a nil
inner map, a Go runtime panic; the equal-value write does return without a
journal entry, a dirty slot or a per-transaction record. -/
theorem setState_panics_on_new_value :
    freshStateDB.SetState c5addr c5key c5val = .panic
    ∧ freshStateDB.SetState c5addr c5key zeroHash = .ok c5dbEq
    ∧ c5dbEq.journal.entries = []
    ∧ (mlookup c5dbEq.stateObjects c5addr).map StateObject.dirtyStorage = some []
    ∧ (mlookup c5dbEq.stateObjects c5addr).map StateObject.storageRecord
        = some [] := by
  decide

/-- C6. The digest input of Commit is not order-invariant: the byte string
fed to Keccak-256 is the concatenation of the write-set values in Go map
range order, and two enumeration orders of the same two-slot write-set
already produce different concatenations, so the digest is not a
deterministic function of the committed state. -/
theorem commit_digest_depends_on_map_order :
    commitHashBytes c6ws ≠ commitHashBytes c6ws.reverse
    ∧ c6ws.reverse.Perm c6ws := by
  decide

/-- C4. Layered storage reads: GetState is defined by the first of the
layers dirty, pending, origin cache, account storage (the disk image) that
contains the key; GetCommittedState resolves the same chain starting at
pending, regardless of any dirty entry; a key present in no layer yields
the zero hash (a disk hit is converted with SetBytes on the way out). -/
theorem getState_layer_order (obj : StateObject) (key : Bytes) :
    (∀ v, mlookup obj.dirtyStorage key = some v →
        (obj.getState key).value = v)
    ∧ (mlookup obj.dirtyStorage key = none →
        obj.getState key = obj.getCommittedState key)
    ∧ (∀ v, mlookup obj.pendingStorage key = some v →
        (obj.getCommittedState key).value = v)
    ∧ (mlookup obj.pendingStorage key = none →
        ∀ v, mlookup obj.originStorage key = some v →
        (obj.getCommittedState key).value = v)
    ∧ (mlookup obj.pendingStorage key = none →
        mlookup obj.originStorage key = none →
        ∀ v, obj.getOriginStorage key = some v →
        (obj.getCommittedState key).value = bytesToHash v)
    ∧ (mlookup obj.pendingStorage key = none →
        mlookup obj.originStorage key = none →
        obj.getOriginStorage key = none →
        (obj.getCommittedState key).value = zeroHash) := by
  refine ⟨?_, ?_, ?_, ?_, ?_, ?_⟩
  · intro v h
    simp [StateObject.getState, h]
  · intro h
    simp [StateObject.getState, h]
  · intro v h
    simp [StateObject.getCommittedState, h]
  · intro hp v h
    simp [StateObject.getCommittedState, hp, h]
  · intro hp ho v h
    simp [StateObject.getCommittedState, hp, ho, h]
  · intro hp ho h
    simp [StateObject.getCommittedState, hp, ho, h]

theorem getState_layer_order_witness :
    (c4obj.getState c4key).value = c4v1
    ∧ (c4obj.getCommittedState c4key).value = c4v2 :=
  ⟨(getState_layer_order c4obj c4key).1 c4v1 (by decide),
   (getState_layer_order c4obj c4key).2.2.1 c4v2 (by decide)⟩

/-- C7. Error memoisation: setError keeps only the first error; a committed
read that misses every layer including the disk image returns the zero hash
and memoises the key-not-found error; and whenever the memo is set, Commit
returns the abort error with the state, and with it both databases,
untouched. -/
theorem setError_memo_commit_abort :
    (∀ (db : StateDB) (e : GoErr), db.dbErr = none →
        (StateDB.setError db e).dbErr = some e)
    ∧ (∀ (db : StateDB) (e e0 : GoErr), db.dbErr = some e0 →
        (StateDB.setError db e).dbErr = some e0)
    ∧ (∀ (db : StateDB) (addr : Bytes) (obj : StateObject) (key : Bytes),
        mlookup db.stateObjects addr = some obj →
        obj.deleted = false →
        mlookup obj.pendingStorage key = none →
        mlookup obj.originStorage key = none →
        obj.getOriginStorage key = none →
        db.GetCommittedState addr key
          = .ok (zeroHash, db.setError .keyNotFound))
    ∧ (∀ (keccak : Bytes → Bytes) (db : StateDB) (e : GoErr),
        db.dbErr = some e →
        db.Commit keccak = .ok (.error .commitAborted, db)) := by
  refine ⟨?_, ?_, ?_, ?_⟩
  · intro db e h
    simp [StateDB.setError, h]
  · intro db e e0 h
    simp [StateDB.setError, h]
  · intro db addr obj key hobj hdel hp ho hd
    simp [StateDB.GetCommittedState, StateDB.getStateObject,
      StateDB.getDeletedStateObject, hobj, hdel,
      StateObject.getCommittedState, hp, ho, hd, minsert_self hobj]
  · intro keccak db e h
    simp [StateDB.Commit, h]

theorem setError_memo_commit_abort_witness :
    (c7db.setError .keyNotFound).dbErr = some .keyNotFound
    ∧ ((c7db.setError .keyNotFound).setError .codeNotFound).dbErr
        = some .keyNotFound
    ∧ c7db.GetCommittedState c7addr c7key
        = .ok (zeroHash, c7db.setError .keyNotFound)
    ∧ (c7db.setError .keyNotFound).Commit idKeccak
        = .ok (.error .commitAborted, c7db.setError .keyNotFound) :=
  ⟨setError_memo_commit_abort.1 c7db .keyNotFound (by decide),
   setError_memo_commit_abort.2.1 (c7db.setError .keyNotFound) .codeNotFound
     .keyNotFound (by decide),
   setError_memo_commit_abort.2.2.1 c7db c7addr (newObject c7addr none) c7key
     (by decide) (by decide) (by decide) (by decide) (by decide),
   setError_memo_commit_abort.2.2.2 idKeccak (c7db.setError .keyNotFound)
     .keyNotFound (by decide)⟩

/-- C8 counterexample. Code that is stored but empty is not distinguishable
from absent code: with an empty blob stored on disk under the code key of
the hash, ContractCode still returns the not-found error, although code is
stored under the hash. -/
theorem contractCode_stored_empty_errors :
    (c8db.ContractCode [0] c8hash).1 = .error .codeNotFound
    ∧ mlookup c8db.disk (codeKey c8hash) = some [] := by
  decide

/-- C8 amended. ContractCode returns the not-found error exactly when
neither the code cache nor the disk holds a non-empty blob under the hash
(stored-but-empty code is treated as absent); otherwise it returns the
cached blob, or the disk blob when the cache misses, without error. -/
theorem contractCode_error_iff (db : CachingDB) (addr h : Bytes) :
    ((db.ContractCode addr h).1 = .error .codeNotFound
      ↔ (mlookup db.codeCache h).getD [] = [] ∧ ReadCode db.disk h = [])
    ∧ ((mlookup db.codeCache h).getD [] ≠ [] →
        (db.ContractCode addr h).1 = .ok ((mlookup db.codeCache h).getD []))
    ∧ ((mlookup db.codeCache h).getD [] = [] →
        ReadCode db.disk h ≠ [] →
        (db.ContractCode addr h).1 = .ok (ReadCode db.disk h)) := by
  refine ⟨?_, ?_, ?_⟩
  · by_cases h1 : (mlookup db.codeCache h).getD [] = []
    · by_cases h2 : ReadCode db.disk h = []
      · simp [CachingDB.ContractCode, h1, h2]
      · simp [CachingDB.ContractCode, h1, h2, List.length_pos.mpr h2]
    · simp [CachingDB.ContractCode, h1, List.length_pos.mpr h1]
  · intro h1
    simp [CachingDB.ContractCode, List.length_pos.mpr h1]
  · intro h1 h2
    simp [CachingDB.ContractCode, h1, List.length_pos.mpr h2]

theorem contractCode_error_iff_witness :
    (c8dbW.ContractCode [0] c8hash).1 = .ok (ReadCode c8dbW.disk c8hash) :=
  (contractCode_error_iff c8dbW [0] c8hash).2.2 (by decide) (by decide)

/-- C10. For an account whose object already exists in memory, AddBalance
and SubBalance of zero return before touching anything, leaving the state
bit-for-bit unchanged, while SetBalance journals the previous balance and
stamps the metadata record of the current transaction even when the new
value equals the old one. -/
theorem addBalance_zero_noop :
    (∀ (db : StateDB) (addr : Bytes) (obj : StateObject),
        mlookup db.stateObjects addr = some obj →
        obj.deleted = false → db.AddBalance addr 0 = .ok db)
    ∧ (∀ (db : StateDB) (addr : Bytes) (obj : StateObject),
        mlookup db.stateObjects addr = some obj →
        obj.deleted = false → db.SubBalance addr 0 = .ok db)
    ∧ (∀ (db : StateDB) (addr : Bytes) (obj : StateObject),
        mlookup db.stateObjects addr = some obj →
        obj.deleted = false →
        ∃ db2 : StateDB, db.SetBalance addr obj.data.balance = .ok db2
          ∧ db2.journal.entries = db.journal.entries
              ++ [.balanceChange obj.address obj.data.balance]
          ∧ (mlookup db2.stateObjects addr).map
              (fun o => mlookup o.metadataRecord db.txIndex)
            = some (some
                (metadataRecordWithBalance obj db.txIndex obj.data.balance))) := by
  refine ⟨?_, ?_, ?_⟩
  · intro db addr obj hobj hdel
    simp [StateDB.AddBalance, StateDB.GetOrNewStateObject,
      StateDB.getStateObject, StateDB.getDeletedStateObject, hobj, hdel]
  · intro db addr obj hobj hdel
    simp [StateDB.SubBalance, StateDB.GetOrNewStateObject,
      StateDB.getStateObject, StateDB.getDeletedStateObject, hobj, hdel]
  · intro db addr obj hobj hdel
    refine ⟨{ db with
        journal := db.journal.append
          (.balanceChange obj.address obj.data.balance)
        stateObjects := minsert db.stateObjects addr
          { obj with
              metadataRecord := minsert obj.metadataRecord db.txIndex
                (metadataRecordWithBalance obj db.txIndex obj.data.balance)
              data := obj.data } }, ?_, ?_, ?_⟩
    · simp [StateDB.SetBalance, StateDB.GetOrNewStateObject,
        StateDB.getStateObject, StateDB.getDeletedStateObject, hobj, hdel]
    · simp [Journal.append]
    · simp [mlookup_minsert]

theorem addBalance_zero_noop_witness :
    c10db.AddBalance c10addr 0 = .ok c10db
    ∧ c10db.SubBalance c10addr 0 = .ok c10db
    ∧ ∃ db2, c10db.SetBalance c10addr c10obj.data.balance = .ok db2
        ∧ db2.journal.entries = c10db.journal.entries
            ++ [.balanceChange c10obj.address c10obj.data.balance]
        ∧ (mlookup db2.stateObjects c10addr).map
            (fun o => mlookup o.metadataRecord c10db.txIndex)
          = some (some (metadataRecordWithBalance c10obj c10db.txIndex
              c10obj.data.balance)) :=
  ⟨addBalance_zero_noop.1 c10db c10addr c10obj (by decide) (by decide),
   addBalance_zero_noop.2.1 c10db c10addr c10obj (by decide) (by decide),
   addBalance_zero_noop.2.2 c10db c10addr c10obj (by decide) (by decide)⟩

theorem bucketTxs_addToBucket (m : List (Nat × List PoolTx)) (a : Nat)
    (tx : PoolTx) :
    (bucketTxs (addToBucket m a tx)).Perm (tx :: bucketTxs m) := by
  induction m with
  | nil => simp [addToBucket, bucketTxs]
  | cons kv rest ih =>
    obtain ⟨a', l⟩ := kv
    by_cases hk : a = a'
    · subst hk
      simp only [addToBucket, eq_self_iff_true, if_true, bucketTxs,
        List.map_cons, List.flatten_cons, List.append_assoc,
        List.singleton_append]
      exact List.perm_middle
    · simp only [addToBucket, if_neg hk, bucketTxs, List.map_cons,
        List.flatten_cons]
      exact (List.Perm.append_left l ih).trans List.perm_middle

theorem bucketTxs_filter (m : List (Nat × List PoolTx)) (f : PoolTx → Bool) :
    bucketTxs (m.map (fun al => (al.1, al.2.filter f)))
      = (bucketTxs m).filter f := by
  induction m with
  | nil => simp [bucketTxs]
  | cons kv rest ih =>
    obtain ⟨a', l⟩ := kv
    simp only [bucketTxs, List.map_cons, List.flatten_cons,
      List.filter_append] at ih ⊢
    rw [ih]

theorem filter_swap (l : List PoolTx) (f g : PoolTx → Bool) :
    (l.filter f).filter g = (l.filter g).filter f := by
  induction l with
  | nil => rfl
  | cons x xs ih =>
    cases hf : f x <;> cases hg : g x <;>
      simp [List.filter_cons, hf, hg, ih]

theorem admission_all_perm {p : Pool} (tx : PoolTx)
    (h2 : (p.urgent ++ p.floating).Perm (p.all.filter (fun t => !t.isLocal))) :
    ((if tx.isLocal = true then p.urgent else p.urgent ++ [tx])
        ++ p.floating).Perm
      ((p.all ++ [tx]).filter (fun t => !t.isLocal)) := by
  by_cases hl : tx.isLocal = true
  · rw [if_pos hl]
    have e : (p.all ++ [tx]).filter (fun t => !t.isLocal)
        = p.all.filter (fun t => !t.isLocal) := by
      simp [List.filter_append, hl]
    rw [e]
    exact h2
  · rw [if_neg hl]
    have e : (p.all ++ [tx]).filter (fun t => !t.isLocal)
        = p.all.filter (fun t => !t.isLocal) ++ [tx] := by
      simp only [List.filter_append, List.filter_cons, List.filter_nil]
      simp [Bool.not_eq_true] at hl
      simp [hl]
    rw [e]
    have s1 : ((p.urgent ++ [tx]) ++ p.floating).Perm
        (tx :: (p.urgent ++ p.floating)) := by
      have e2 : (p.urgent ++ [tx]) ++ p.floating
          = p.urgent ++ tx :: p.floating := by simp
      rw [e2]
      exact List.perm_middle
    exact s1.trans ((h2.cons tx).trans
      (List.perm_append_singleton tx _).symm)

theorem stepPool_inv {p : Pool} (op : PoolOp) (h : PoolInv p) :
    PoolInv (stepPool p op) := by
  obtain ⟨h1, h2⟩ := h
  cases op with
  | addPending a tx =>
    by_cases hk : ((p.all.map PoolTx.hash).contains tx.hash) = true
    · simp only [stepPool]
      rw [if_pos hk]
      exact ⟨h1, h2⟩
    · simp only [stepPool]
      rw [if_neg hk]
      refine ⟨?_, admission_all_perm tx h2⟩
      have s1 : (bucketTxs (addToBucket p.pending a tx)
          ++ bucketTxs p.queue).Perm
          ((tx :: bucketTxs p.pending) ++ bucketTxs p.queue) :=
        List.Perm.append_right _ (bucketTxs_addToBucket p.pending a tx)
      exact s1.trans ((h1.cons tx).trans
        (List.perm_append_singleton tx p.all).symm)
  | addQueued a tx =>
    by_cases hk : ((p.all.map PoolTx.hash).contains tx.hash) = true
    · simp only [stepPool]
      rw [if_pos hk]
      exact ⟨h1, h2⟩
    · simp only [stepPool]
      rw [if_neg hk]
      refine ⟨?_, admission_all_perm tx h2⟩
      have s1 : (bucketTxs p.pending
          ++ bucketTxs (addToBucket p.queue a tx)).Perm
          (tx :: (bucketTxs p.pending ++ bucketTxs p.queue)) :=
        (List.Perm.append_left _ (bucketTxs_addToBucket p.queue a tx)).trans
          List.perm_middle
      exact s1.trans ((h1.cons tx).trans
        (List.perm_append_singleton tx p.all).symm)
  | remove hh =>
    constructor
    · show (bucketTxs (p.pending.map
          (fun al => (al.1, al.2.filter (fun t => t.hash != hh))))
        ++ bucketTxs (p.queue.map
          (fun al => (al.1, al.2.filter (fun t => t.hash != hh))))).Perm
        (p.all.filter (fun t => t.hash != hh))
      rw [bucketTxs_filter, bucketTxs_filter, ← List.filter_append]
      exact h1.filter _
    · show (p.urgent.filter (fun t => t.hash != hh)
          ++ p.floating.filter (fun t => t.hash != hh)).Perm
        ((p.all.filter (fun t => t.hash != hh)).filter (fun t => !t.isLocal))
      rw [← List.filter_append, ← filter_swap]
      exact h2.filter _
  | rebalance n =>
    refine ⟨h1, ?_⟩
    show (p.urgent.drop n ++ (p.floating ++ p.urgent.take n)).Perm
      (p.all.filter (fun t => !t.isLocal))
    have s1 : (p.urgent.drop n ++ (p.floating ++ p.urgent.take n)).Perm
        ((p.urgent.take n ++ p.urgent.drop n) ++ p.floating) := by
      have s2 : (p.urgent.drop n ++ (p.floating ++ p.urgent.take n)).Perm
          (p.urgent.drop n ++ (p.urgent.take n ++ p.floating)) :=
        List.Perm.append_left _ List.perm_append_comm
      have s3 : p.urgent.drop n ++ (p.urgent.take n ++ p.floating)
          = (p.urgent.drop n ++ p.urgent.take n) ++ p.floating :=
        (List.append_assoc _ _ _).symm
      have s4 : ((p.urgent.drop n ++ p.urgent.take n) ++ p.floating).Perm
          ((p.urgent.take n ++ p.urgent.drop n) ++ p.floating) :=
        List.Perm.append_right _ List.perm_append_comm
      exact (s2.trans (s3 ▸ List.Perm.refl _)).trans s4
    have s5 : (p.urgent.take n ++ p.urgent.drop n) ++ p.floating
        = p.urgent ++ p.floating := by rw [List.take_append_drop]
    exact (s1.trans (s5 ▸ List.Perm.refl _)).trans h2

theorem runPoolOps_inv (ops : List PoolOp) : PoolInv (runPoolOps ops) := by
  have general : ∀ (l : List PoolOp) (p : Pool), PoolInv p →
      PoolInv (l.foldl stepPool p) := by
    intro l
    induction l with
    | nil => intro p hp; exact hp
    | cons op rest ih =>
      intro p hp
      exact ih (stepPool p op) (stepPool_inv op hp)
  exact general ops emptyPool ⟨List.Perm.refl _, List.Perm.refl _⟩

/-- C9. Pool-at-rest invariant, modelled from the spec since the LegacyPool
implementation is not among the sources: every pool reachable from boot by
a sequence of admissions, removals and heap rebalances satisfies that the
pending plus queued transaction counts equal the size of the global lookup,
and that the urgent plus floating halves of the price heap together hold
exactly the remote entries of the lookup. -/
theorem pool_at_rest_counts (ops : List PoolOp) :
    pendingCount (runPoolOps ops) + queueCount (runPoolOps ops)
      = allCount (runPoolOps ops)
    ∧ (runPoolOps ops).urgent.length + (runPoolOps ops).floating.length
      = remoteCount (runPoolOps ops) := by
  obtain ⟨h1, h2⟩ := runPoolOps_inv ops
  constructor
  · have := h1.length_eq
    simpa [pendingCount, queueCount, allCount] using this
  · have := h2.length_eq
    simpa [remoteCount] using this

end Execution
